import Mathlib

/-!
Shallow embedding of the data-handling core of the crowd_wisdom_ai repository:
the SEC filing normalization step (`src/tools/sec_scraper.py`), the per-company
volume aggregation and ranking in the chart generators (`src/tools/chart_generator.py`,
`src/main.py`), the company-name guardrail (`src/flows/insider_trading_flow.py`),
and the sentiment aggregation (`src/tools/sentiment_analyzer.py`).

Python dictionaries that occur in these code paths are flat: their values are
strings, integers, floats or `None`.  We model such values by `PyPrim` and a
record/dictionary by `PyVal.dict` with a list of string-keyed entries.
Python floats are modelled by rationals; none of the verified properties
depend on rounding behaviour.
-/

/-- A primitive Python value as it occurs in the repository's filing records:
`None`, a string, an integer, or a float (modelled as a rational). -/
inductive PyPrim where
  | none
  | str (s : String)
  | int (n : Int)
  | float (q : Rat)
  deriving DecidableEq

/-- A Python value that can be a primitive or a flat string-keyed dictionary. -/
inductive PyVal where
  | prim (p : PyPrim)
  | dict (entries : List (String × PyPrim))
  deriving DecidableEq

/-- Python truthiness of a primitive value: `None`, `""`, `0`, `0.0` are falsy. -/
def primTruthy : PyPrim → Bool
  | .none => false
  | .str s => s ≠ ""
  | .int n => n ≠ 0
  | .float q => q ≠ 0

/-- Python truthiness of a value; a dict is truthy iff it is non-empty. -/
def pyTruthy : PyVal → Bool
  | .prim p => primTruthy p
  | .dict [] => false
  | .dict (_ :: _) => true

/-- `entries.get(key, default)` on a flat dictionary's entry list. -/
def pyGet : List (String × PyPrim) → String → PyPrim → PyPrim
  | [], _, d => d
  | (k', v) :: rest, k, d => if k' = k then v else pyGet rest k d

/-- `value.get(key, default)`: on a non-dict value, Python raises
`AttributeError`; callers in the source wrap this in `try/except`, and the
embedding of each caller handles the non-dict case explicitly, so here the
default stands for the value the caller's handler observes. -/
def dictGet (v : PyVal) (k : String) (d : PyPrim) : PyPrim :=
  match v with
  | .dict entries => pyGet entries k d
  | .prim _ => d

/-! ## `src/tools/sec_scraper.py` : `_extract_insider_details` -/

/-- A character matched by the regex class `[A-Z]`. -/
def upperAZ (c : Char) : Bool := 'A' ≤ c && c ≤ 'Z'

/-- Attempt of the regex `\(([A-Z]{1,5})\)` (minus its leading `(`) at one
position: after a literal `(` the greedy `[A-Z]{1,5}` with backtracking
succeeds exactly when the maximal run of uppercase letters has length 1..5
and is followed by `)` (a shorter take is always followed by another
uppercase letter, so backtracking cannot succeed). -/
def tickerAt (cs : List Char) : Option (List Char) :=
  let r := cs.takeWhile upperAZ
  if 1 ≤ r.length && r.length ≤ 5 && ((cs.drop r.length).headI = ')') then some r else none

/-- `re.search(r'\(([A-Z]{1,5})\)', title)`: leftmost position at which the
pattern matches, returning the captured group. -/
def findTicker : List Char → Option (List Char)
  | [] => Option.none
  | c :: cs =>
    if c = '(' then
      match tickerAt cs with
      | some r => some r
      | Option.none => findTicker cs
    else findTicker cs

/-- `title.split(' - ')[0]`: the part of the title before the first
occurrence of the separator `" - "` (the whole title when absent). -/
def beforeSep : List Char → List Char
  | [] => []
  | c :: cs => if [' ', '-', ' '].isPrefixOf (c :: cs) then [] else c :: beforeSep cs

/-- The dictionary returned by `_extract_insider_details`, as a structure.
`date`, `filing_url` and `raw_title` keep the raw Python value stored by the
source (`filing.get` may surface a non-string).  `err` records whether the
record came from the `except` branch (which adds an `error` key). -/
structure InsiderRecord where
  company : String
  insider : String
  transaction : String
  shares : Int
  price : Rat
  date : PyPrim
  filing_url : PyPrim
  raw_title : PyPrim
  err : Bool
  deriving DecidableEq

/-- The record built by the `except` branch of `_extract_insider_details`. -/
def fallbackRecord (today : String) : InsiderRecord :=
  { company := "UNKNOWN", insider := "Unknown", transaction := "Unknown",
    shares := 0, price := 0, date := .str today, filing_url := .str "",
    raw_title := .str "", err := true }

/-- `_extract_insider_details(filing)` (`src/tools/sec_scraper.py` lines 124-165).
The `try` body reads `title`/`url`/`date` with `.get(..., '')`; it raises — and
the `except` branch produces the all-sentinel record — exactly when `filing`
is not a dictionary (`.get` raises `AttributeError`) or the stored title is
not a string (`re.search` raises `TypeError`).  On the non-raising path the
ticker is parsed from the title, the insider name is the title prefix before
`' - '`, and transaction/shares/price are the hardcoded placeholders
`'Sale'`/`10000`/`100.0`. -/
def extract_insider_details (filing : PyVal) (today : String) : InsiderRecord :=
  match filing with
  | .dict entries =>
    let title := pyGet entries "title" (.str "")
    let url := pyGet entries "url" (.str "")
    let fdate := pyGet entries "date" (.str "")
    match title with
    | .str t =>
      { company := match findTicker t.data with
          | some r => String.mk r
          | Option.none => "UNKNOWN"
        insider := String.mk (beforeSep t.data)
        transaction := "Sale"
        shares := 10000
        price := 100
        date := if primTruthy fdate then fdate else .str today
        filing_url := url
        raw_title := .str t
        err := false }
    | _ => fallbackRecord today
  | .prim _ => fallbackRecord today

/-- The dictionary actually returned by `_extract_insider_details`; the
`except` branch additionally stores an `error` key. -/
def recordToDict (r : InsiderRecord) : PyVal :=
  .dict (("company", .str r.company) :: ("insider", .str r.insider) ::
    ("transaction", .str r.transaction) :: ("shares", .int r.shares) ::
    ("price", .float r.price) :: ("date", r.date) ::
    ("filing_url", r.filing_url) :: ("raw_title", r.raw_title) ::
    (if r.err then [("error", PyPrim.str "")] else []))

/-! ## `src/tools/sec_scraper.py` : `get_recent_insider_filings` -/

/-- `SAMPLE_DATA_NOTE` from `src/tools/sec_scraper.py`. -/
def SAMPLE_DATA_NOTE : String := "Sample data - live SEC data integration needed"

/-- `_get_sample_data` (`src/tools/sec_scraper.py` lines 167-200): the three
hardcoded fallback records. -/
def sample_data (today yesterday : String) : List PyVal :=
  [ .dict [("company", .str "AAPL"), ("insider", .str "Tim Cook"),
      ("transaction", .str "Sale"), ("shares", .int 50000),
      ("date", .str today), ("price", .float (451/2)),
      ("note", .str SAMPLE_DATA_NOTE)],
    .dict [("company", .str "MSFT"), ("insider", .str "Satya Nadella"),
      ("transaction", .str "Purchase"), ("shares", .int 25000),
      ("date", .str today), ("price", .float (1683/4)),
      ("note", .str SAMPLE_DATA_NOTE)],
    .dict [("company", .str "GOOGL"), ("insider", .str "Sundar Pichai"),
      ("transaction", .str "Sale"), ("shares", .int 30000),
      ("date", .str yesterday), ("price", .float (661/4)),
      ("note", .str SAMPLE_DATA_NOTE)] ]

/-- Outcome of the live `requests.get` call plus atom-feed parsing: either
some exception was raised inside the outer `try`, or a response arrived with
a status code and the list of filing dictionaries `_parse_atom_feed`
extracted from its body. -/
inductive FetchOutcome where
  | raised
  | response (status : Nat) (feed : List PyVal)

/-- `get_recent_insider_filings` (`src/tools/sec_scraper.py` lines 24-88).
On a 200 response the first 20 feed entries are each normalized by
`_extract_insider_details` (which is total, so the inner per-filing
`try/except/continue` never skips an entry) and appended when truthy; on any
raised exception, on a non-200 status, or when no records were collected, the
sample data is returned instead. -/
def get_recent_insider_filings (fetch : FetchOutcome) (today yesterday : String) :
    List PyVal :=
  match fetch with
  | .raised => sample_data today yesterday
  | .response status feed =>
    let insider_filings :=
      if status = 200 then
        ((feed.take 20).map (fun f => recordToDict (extract_insider_details f today))).filter
          pyTruthy
      else []
    if insider_filings = [] then sample_data today yesterday else insider_filings

/-! ## Per-company volume aggregation (`src/main.py`, `src/tools/chart_generator.py`) -/

/-- One step of the Python pattern `d[k] = d.get(k, 0) + v` on an
insertion-ordered dictionary: an existing key is updated in place, a new key
is appended at the end. -/
def upsertAdd (k : PyPrim) (v : Int) : List (PyPrim × Int) → List (PyPrim × Int)
  | [] => [(k, v)]
  | (k', v') :: rest => if k' = k then (k', v' + v) :: rest else (k', v') :: upsertAdd k v rest

/-- `d.get(k, d0)` on an insertion-ordered int-valued dictionary. -/
def lookupD : List (PyPrim × Int) → PyPrim → Int → Int
  | [], _, d => d
  | (k', v) :: rest, k, d => if k' = k then v else lookupD rest k d

/-- `filing.get('shares', 0)` coerced to an integer.  In the source a
non-integer stored value makes the subsequent `+` raise, which the enclosing
chart function's handler turns into an error-message string; theorems about
the aggregation therefore carry the `intSharesOk` domain hypothesis. -/
def sharesVal (f : PyVal) : Int :=
  match dictGet f "shares" (.int 0) with
  | .int n => n
  | _ => 0

/-- The filing stores an integer (or no) `shares` value, so the source's
aggregation loop runs without raising. -/
def intSharesOk (f : PyVal) : Prop := ∃ n, dictGet f "shares" (.int 0) = PyPrim.int n

/-- `filing.get('company', 'UNKNOWN')` as used by `create_chart`
(`src/main.py` line 52). -/
def mainCompanyOf (f : PyVal) : PyPrim := dictGet f "company" (.str "UNKNOWN")

/-- The aggregation loop of `create_chart` (`src/main.py` lines 50-58):
`company_volumes[company] += shares` / `= shares`, keyed by the raw
(un-normalized) company value. -/
def company_volumes (filings : List PyVal) : List (PyPrim × Int) :=
  filings.foldl (fun acc f => upsertAdd (mainCompanyOf f) (sharesVal f) acc) []

/-- `filing.get('company', 'Unknown')` as used throughout
`src/tools/chart_generator.py` (lines 45, 109, 232). -/
def chartCompanyOf (f : PyVal) : PyPrim := dictGet f "company" (.str "Unknown")

/-- The per-company volume dictionaries of `src/tools/chart_generator.py`:
the same `d[comp] = d.get(comp, 0) + vol` loop appears in
`create_comparison_chart_simple` (lines 54-60), `create_comparison_chart`
(lines 116-122) and `create_interactive_comparison_chart` (lines 230-240). -/
def vol_by_company (filings : List PyVal) : List (PyPrim × Int) :=
  filings.foldl (fun acc f => upsertAdd (chartCompanyOf f) (sharesVal f) acc) []

/-- Sum of the shares of the filings grouped under key `k`. -/
def sharesFor (k : PyPrim) (filings : List PyVal) : Int :=
  ((filings.filter (fun f => mainCompanyOf f = k)).map sharesVal).sum

/-! ## Ranking (`src/tools/chart_generator.py` lines 243-244) -/

/-- The order under which `sorted(items, key=lambda x: x[1], reverse=True)`
places `x` no later than `y`: descending by the integer value. -/
def valGE (x y : PyPrim × Int) : Prop := y.2 ≤ x.2

instance : DecidableRel valGE := fun x y => inferInstanceAs (Decidable (y.2 ≤ x.2))

instance : IsTotal (PyPrim × Int) valGE := ⟨fun a b => le_total b.2 a.2⟩

instance : IsTrans (PyPrim × Int) valGE := ⟨fun _ _ _ h h' => le_trans h' h⟩

/-- `sorted(d.items(), key=lambda x: x[1], reverse=True)`: Python's sort is
stable, and `List.insertionSort valGE` (which keeps an element before every
later element of equal value) computes exactly that stable descending sort. -/
def pySortDescByVal (l : List (PyPrim × Int)) : List (PyPrim × Int) :=
  List.insertionSort valGE l

/-- `top_companies_24hr = sorted(companies_24hr.items(), key=lambda x: x[1],
reverse=True)[:10]` (`src/tools/chart_generator.py` line 243). -/
def top_companies (filings : List PyVal) : List (PyPrim × Int) :=
  (pySortDescByVal (vol_by_company filings)).take 10

/-! ## `create_comparison_chart_simple` (`src/tools/chart_generator.py` lines 45-65) -/

/-- `[filing.get('company', 'Unknown') for filing in filings]` (line 45/48). -/
def companiesOf (filings : List PyVal) : List PyPrim := filings.map chartCompanyOf

/-- `enum` is a possible result of `list(set(companies_24hr + companies_week))`
(line 52): some enumeration, in an order chosen by the interpreter's
hash-seed-dependent set iteration, of the distinct company values. -/
def validSetOrder (f24 fwk : List PyVal) (enum : List PyPrim) : Prop :=
  enum.Perm ((companiesOf f24 ++ companiesOf fwk).dedup)

/-- The data series plotted by `create_comparison_chart_simple` (lines 52-65):
the first ten enumerated companies together with their 24-hour and weekly
aggregated volumes (`vol_24hr_by_company.get(c, 0)` etc.). -/
def simple_chart_series (f24 fwk : List PyVal) (enum : List PyPrim) :
    List PyPrim × List Int × List Int :=
  let all_companies := enum.take 10
  (all_companies,
   all_companies.map (fun c => lookupD (vol_by_company f24) c 0),
   all_companies.map (fun c => lookupD (vol_by_company fwk) c 0))

/-- The full per-company rows `(company, 24h volume, weekly volume)` for an
enumeration of the companies, before the `[:10]` truncation. -/
def full_rows (f24 fwk : List PyVal) (enum : List PyPrim) : List (PyPrim × Int × Int) :=
  enum.map (fun c => (c, lookupD (vol_by_company f24) c 0, lookupD (vol_by_company fwk) c 0))

/-! ## Transaction-type counting (`src/tools/chart_generator.py` lines 164-176) -/

/-- `[item.get('transaction', 'Unknown') for item in filings]` (line 164). -/
def transactionsOf (filings : List PyVal) : List PyPrim :=
  filings.map (fun f => dictGet f "transaction" (.str "Unknown"))

/-- `collections.Counter(xs)`: occurrence counts in an insertion-ordered
mapping (first appearance fixes the position). -/
def pyCounter (xs : List PyPrim) : List (PyPrim × Int) :=
  xs.foldl (fun acc t => upsertAdd t 1 acc) []

/-! ## `src/flows/insider_trading_flow.py` : `FlowGuardrails.sanitize_company_name` -/

/-- A character stripped by Python's `str.strip()` (its ASCII whitespace set). -/
def pySpace (c : Char) : Bool :=
  c = ' ' || c = '\t' || c = '\n' || c = '\r' || c = '\x0b' || c = '\x0c'

/-- `s.strip()`: remove leading and trailing whitespace. -/
def pyStrip (s : String) : String :=
  String.mk (((s.data.dropWhile pySpace).reverse.dropWhile pySpace).reverse)

/-- `c.upper()` on one character: ASCII case mapping (the inputs the pipeline
feeds this guardrail are ASCII tickers/issuer names). -/
def pyUpperChar (c : Char) : Char :=
  if 'a' ≤ c && c ≤ 'z' then Char.ofNat (c.toNat - 32) else c

/-- `s.upper()`. -/
def pyUpper (s : String) : String := String.mk (s.data.map pyUpperChar)

/-- `s[:10]`. -/
def pySlice10 (s : String) : String := String.mk (s.data.take 10)

/-- `FlowGuardrails.sanitize_company_name`
(`src/flows/insider_trading_flow.py` lines 484-489): falsy or non-string
input yields `'UNKNOWN'`, otherwise `company.strip().upper()[:10]`. -/
def sanitize_company_name (company : PyPrim) : String :=
  match company with
  | .str s => if s = "" then "UNKNOWN" else pySlice10 (pyUpper (pyStrip s))
  | _ => "UNKNOWN"

/-! ## `src/tools/sentiment_analyzer.py` : sentiment labels and aggregation -/

/-- The label assignment of `SentimentAnalyzer.analyze_text_sentiment`
(`src/tools/sentiment_analyzer.py` lines 52-59): the combined score is the
mean of the TextBlob polarity and the VADER compound score, labelled
`positive` at `>= 0.1`, `negative` at `<= -0.1`, `neutral` otherwise. -/
def analyze_text_sentiment (polarity compound : Rat) : String :=
  let combined_score := (polarity + compound) / 2
  if combined_score ≥ 1/10 then "positive"
  else if combined_score ≤ -(1/10) then "negative"
  else "neutral"

/-- `sum(1 for s in all_sentiment if s['sentiment'] == lbl)`
(`src/tools/sentiment_analyzer.py` lines 244-246). -/
def count_sentiment (lbl : String) (labels : List String) : Nat :=
  (labels.filter (fun s => s = lbl)).length

/-- The sentiment labels of the collected entries: every entry of
`all_sentiment` received its `sentiment` field from `analyze_text_sentiment`
(news, Twitter and YouTube collectors all call it), so the analyzed corpus is
determined by the per-entry `(polarity, compound)` score pairs. -/
def market_labels (scores : List (Rat × Rat)) : List String :=
  scores.map (fun p => analyze_text_sentiment p.1 p.2)

/-- The overall label of `analyze_market_sentiment`
(`src/tools/sentiment_analyzer.py` lines 250-255): strict majority between
positive and negative counts, `neutral` on a tie. -/
def overall_sentiment (labels : List String) : String :=
  if count_sentiment "negative" labels < count_sentiment "positive" labels then "positive"
  else if count_sentiment "positive" labels < count_sentiment "negative" labels then "negative"
  else "neutral"

/-! ## Window Comparator (spec sections 3 and 4.3) -/

/-- The `percentDelta` of a `ComparisonResult`: a finite percentage (as a
fraction, so `-1` is `-100%`) or the "undefined/new-activity" sentinel. -/
inductive PercentDelta where
  | newActivity
  | pct (q : Rat)
  deriving DecidableEq

/-- Modelled from the spec: `ComparisonResult` of section 3.  The repository
contains no Window Comparator implementation (the comparison of the two
windows is delegated to free-text LLM judgment at report time), so the data
entity follows the spec's words. -/
structure ComparisonResult where
  key : String
  currentTotal : Rat
  baselineTotal : Rat
  absoluteDelta : Rat
  percentDelta : PercentDelta
  deriving DecidableEq

/-- Lookup in a window's key-total mapping. -/
def lookupQ : List (String × Rat) → String → Option Rat
  | [], _ => Option.none
  | (k', v) :: rest, k => if k' = k then some v else lookupQ rest k

/-- Modelled from the spec: the Window Comparator `compare` of section 4.3,
which the repository does not implement.  Following the spec's words: one
result per key of the union of both mappings (keys only in the baseline
follow the current keys), absent totals default to 0,
`absoluteDelta = currentTotal - baselineTotal`, and
`percentDelta = absoluteDelta / baselineTotal` when the baseline total is
positive, else the new-activity sentinel (never a division by zero). -/
def compare_windows (current baseline : List (String × Rat)) : List ComparisonResult :=
  let curKeys := current.map Prod.fst
  let keys := curKeys ++ (baseline.map Prod.fst).filter (fun k => ¬ curKeys.contains k)
  keys.map (fun k =>
    let c := (lookupQ current k).getD 0
    let b := (lookupQ baseline k).getD 0
    { key := k, currentTotal := c, baselineTotal := b, absoluteDelta := c - b,
      percentDelta := if 0 < b then .pct ((c - b) / b) else .newActivity })

/-! ## Helper lemmas -/

theorem lookupD_upsertAdd (k key : PyPrim) (v : Int) (acc : List (PyPrim × Int)) :
    lookupD (upsertAdd key v acc) k 0 = lookupD acc k 0 + (if key = k then v else 0) := by
  induction acc with
  | nil =>
    by_cases h : key = k <;> simp [upsertAdd, lookupD, h]
  | cons p rest ih =>
    obtain ⟨k', v'⟩ := p
    by_cases h1 : k' = key
    · subst h1
      by_cases h2 : k' = k
      · subst h2
        simp [upsertAdd, lookupD]
      · simp [upsertAdd, lookupD, h2]
    · by_cases h2 : k' = k
      · subst h2
        have : ¬ key = k' := fun h => h1 h.symm
        simp [upsertAdd, lookupD, h1, this]
      · simp [upsertAdd, lookupD, h1, h2, ih]

theorem lookupD_foldl_upsert (keyF : PyVal → PyPrim) (l : List PyVal)
    (acc : List (PyPrim × Int)) (k : PyPrim) :
    lookupD (l.foldl (fun a f => upsertAdd (keyF f) (sharesVal f) a) acc) k 0
      = lookupD acc k 0 + ((l.filter (fun f => keyF f = k)).map sharesVal).sum := by
  induction l generalizing acc with
  | nil => simp
  | cons f l ih =>
    simp only [List.foldl_cons, ih, lookupD_upsertAdd, List.filter_cons]
    by_cases h : keyF f = k <;> simp [h] <;> ring

theorem snd_sum_upsertAdd (k : PyPrim) (v : Int) (acc : List (PyPrim × Int)) :
    ((upsertAdd k v acc).map Prod.snd).sum = ((acc.map Prod.snd).sum) + v := by
  induction acc with
  | nil => simp [upsertAdd]
  | cons p rest ih =>
    obtain ⟨k', v'⟩ := p
    by_cases h : k' = k
    · simp [upsertAdd, h]
      ring
    · simp [upsertAdd, h, ih]
      ring

theorem pyCounter_sum_aux (xs : List PyPrim) (acc : List (PyPrim × Int)) :
    ((xs.foldl (fun a t => upsertAdd t 1 a) acc).map Prod.snd).sum
      = ((acc.map Prod.snd).sum) + xs.length := by
  induction xs generalizing acc with
  | nil => simp
  | cons t xs ih =>
    simp only [List.foldl_cons, ih, snd_sum_upsertAdd, List.length_cons]
    push_cast
    ring

/-- Claim C5: the transaction-type `Counter` built by `create_comparison_chart`
(`src/tools/chart_generator.py` lines 164-176) conserves record counts: the
sum of the per-transaction-type counts over all aggregated entries equals the
number of input records. -/
theorem claim_C5 (filings : List PyVal) :
    ((pyCounter (transactionsOf filings)).map Prod.snd).sum = (filings.length : Int) := by
  have h := pyCounter_sum_aux (transactionsOf filings) []
  simpa [pyCounter, transactionsOf] using h

/-- Claim C4, counterexample: two filings whose company values differ only in
casing (`"aapl"` vs `"AAPL"`) are NOT merged: `create_chart`'s aggregation
(`src/main.py` lines 50-58) keeps two separate entries, and the `"AAPL"`
entry's total is only its own 200 shares, not the combined 300. -/
theorem claim_C4_counterexample :
    (company_volumes
        [PyVal.dict [("company", PyPrim.str "aapl"), ("shares", PyPrim.int 100)],
         PyVal.dict [("company", PyPrim.str "AAPL"), ("shares", PyPrim.int 200)]]).length = 2 ∧
    lookupD
        (company_volumes
          [PyVal.dict [("company", PyPrim.str "aapl"), ("shares", PyPrim.int 100)],
           PyVal.dict [("company", PyPrim.str "AAPL"), ("shares", PyPrim.int 200)]])
        (PyPrim.str "AAPL") 0 = 200 := by
  constructor
  · rfl
  · rfl

/-- Claim C4, amended: the aggregation groups records under the raw
(un-normalized) company value: for every input sequence whose `shares` values
are integers, the aggregated total under a key `k` is exactly the sum of the
shares of the records whose company value equals `k` literally; records whose
company values differ only in casing land in distinct entries. -/
theorem claim_C4_amended (filings : List PyVal) (hint : ∀ f ∈ filings, intSharesOk f)
    (k : PyPrim) :
    lookupD (company_volumes filings) k 0 = sharesFor k filings := by
  have h := lookupD_foldl_upsert mainCompanyOf filings [] k
  simpa [company_volumes, sharesFor, lookupD] using h

/-- Witness for the amended claim C4 at a concrete input. -/
theorem claim_C4_witness :
    (∀ f ∈ [PyVal.dict [("company", PyPrim.str "AAPL"), ("shares", PyPrim.int 7)]],
      intSharesOk f) ∧
    lookupD (company_volumes [PyVal.dict [("company", PyPrim.str "AAPL"), ("shares", PyPrim.int 7)]])
        (PyPrim.str "AAPL") 0
      = sharesFor (PyPrim.str "AAPL")
          [PyVal.dict [("company", PyPrim.str "AAPL"), ("shares", PyPrim.int 7)]] :=
  ⟨by intro f hf; simp at hf; subst hf; exact ⟨7, rfl⟩,
   claim_C4_amended _ (by intro f hf; simp at hf; subst hf; exact ⟨7, rfl⟩) _⟩

theorem filter_orderedInsert_val (a : PyPrim × Int) (l : List (PyPrim × Int)) (v : Int) :
    (List.orderedInsert valGE a l).filter (fun p => p.2 == v)
      = if a.2 = v then a :: l.filter (fun p => p.2 == v)
        else l.filter (fun p => p.2 == v) := by
  induction l with
  | nil =>
    by_cases h : a.2 = v <;> simp [List.orderedInsert, h]
  | cons b l ih =>
    by_cases hr : valGE a b
    · rw [List.orderedInsert_of_le _ _ hr]
      by_cases h : a.2 = v <;> simp [List.filter_cons, h]
    · have hgt : a.2 < b.2 := lt_of_not_le hr
      have hbv : a.2 = v → ¬ b.2 = v := by
        intro hv hbv
        exact absurd (hbv.trans hv.symm) (ne_of_gt hgt)
      simp only [List.orderedInsert, if_neg hr, List.filter_cons]
      by_cases h : a.2 = v
      · have : ¬ b.2 = v := hbv h
        simp [this, ih, h]
      · by_cases hb : b.2 = v <;> simp [hb, ih, h]

theorem filter_pySortDescByVal (l : List (PyPrim × Int)) (v : Int) :
    (pySortDescByVal l).filter (fun p => p.2 == v) = l.filter (fun p => p.2 == v) := by
  induction l with
  | nil => rfl
  | cons a l ih =>
    simp only [pySortDescByVal, List.insertionSort] at ih ⊢
    rw [filter_orderedInsert_val, List.filter_cons]
    by_cases h : a.2 = v <;> simp [h, ih]

theorem sorted_top_companies (filings : List PyVal) :
    List.Sorted valGE (top_companies filings) := by
  have hs : List.Sorted valGE (pySortDescByVal (vol_by_company filings)) :=
    List.sorted_insertionSort valGE (vol_by_company filings)
  exact List.Pairwise.sublist (List.take_sublist _ _) hs

/-- Claim C6, counterexample: `sorted(..., reverse=True)` is stable, so equal
volumes keep dictionary insertion order, not ascending key order: with
filings for `"B"` then `"A"` at equal volume 10, the ranked output of
`create_interactive_comparison_chart` (`src/tools/chart_generator.py` line 243)
lists `"B"` before `"A"`, although `"A" < "B"` lexically. -/
theorem claim_C6_counterexample :
    top_companies
        [PyVal.dict [("company", PyPrim.str "B"), ("shares", PyPrim.int 10)],
         PyVal.dict [("company", PyPrim.str "A"), ("shares", PyPrim.int 10)]]
      = [(PyPrim.str "B", 10), (PyPrim.str "A", 10)] ∧
    ("A" : String) < "B" := by
  constructor
  · rfl
  · rw [String.lt_iff_toList_lt]
    decide

/-- Claim C6, amended: the ranking sorts descending by the aggregated volume
(every adjacent pair of the ranked output is non-increasing in its metric),
and ties are broken by the stable sort's insertion (first-appearance) order —
for each volume `v`, the equal-volume entries appear in exactly the order in
which the aggregation dictionary holds them — not by ascending key. -/
theorem claim_C6_amended (filings : List PyVal) (hint : ∀ f ∈ filings, intSharesOk f) :
    List.Sorted valGE (top_companies filings) ∧
    ∀ v : Int, (pySortDescByVal (vol_by_company filings)).filter (fun p => p.2 == v)
      = (vol_by_company filings).filter (fun p => p.2 == v) :=
  ⟨sorted_top_companies filings, fun v => filter_pySortDescByVal (vol_by_company filings) v⟩

/-- Witness for the amended claim C6 at a concrete input. -/
theorem claim_C6_witness :
    (∀ f ∈ [PyVal.dict [("company", PyPrim.str "X"), ("shares", PyPrim.int 3)]],
      intSharesOk f) ∧
    (List.Sorted valGE
        (top_companies [PyVal.dict [("company", PyPrim.str "X"), ("shares", PyPrim.int 3)]]) ∧
      ∀ v : Int,
        (pySortDescByVal
            (vol_by_company
              [PyVal.dict [("company", PyPrim.str "X"), ("shares", PyPrim.int 3)]])).filter
            (fun p => p.2 == v)
          = (vol_by_company
              [PyVal.dict [("company", PyPrim.str "X"), ("shares", PyPrim.int 3)]]).filter
            (fun p => p.2 == v)) :=
  ⟨by intro f hf; simp at hf; subst hf; exact ⟨3, rfl⟩,
   claim_C6_amended _ (by intro f hf; simp at hf; subst hf; exact ⟨3, rfl⟩)⟩

/-- Claim C7, counterexample: the company axis of
`create_comparison_chart_simple` is `list(set(...))[:10]`
(`src/tools/chart_generator.py` line 52), and a Python set over strings
iterates in a hash-seed-dependent order: both `[A, B]` and `[B, A]` are
possible enumerations of the same two companies, and they yield different
chart series for the very same input — so two runs need not produce
identical output. -/
theorem claim_C7_counterexample :
    validSetOrder
        [PyVal.dict [("company", PyPrim.str "A"), ("shares", PyPrim.int 1)]]
        [PyVal.dict [("company", PyPrim.str "B"), ("shares", PyPrim.int 2)]]
        [PyPrim.str "A", PyPrim.str "B"] ∧
    validSetOrder
        [PyVal.dict [("company", PyPrim.str "A"), ("shares", PyPrim.int 1)]]
        [PyVal.dict [("company", PyPrim.str "B"), ("shares", PyPrim.int 2)]]
        [PyPrim.str "B", PyPrim.str "A"] ∧
    simple_chart_series
        [PyVal.dict [("company", PyPrim.str "A"), ("shares", PyPrim.int 1)]]
        [PyVal.dict [("company", PyPrim.str "B"), ("shares", PyPrim.int 2)]]
        [PyPrim.str "A", PyPrim.str "B"]
      ≠ simple_chart_series
        [PyVal.dict [("company", PyPrim.str "A"), ("shares", PyPrim.int 1)]]
        [PyVal.dict [("company", PyPrim.str "B"), ("shares", PyPrim.int 2)]]
        [PyPrim.str "B", PyPrim.str "A"] := by
  refine ⟨?_, ?_, ?_⟩
  · unfold validSetOrder
    decide
  · unfold validSetOrder
    decide
  · decide

/-- Claim C7, amended: the aggregation dictionaries and the sorted-based
ranking are pure functions of the input records, but the simple chart's
company axis order comes from set iteration and is fixed only per run: any
two enumerations of the same company set yield per-company rows that are
permutations of each other (the `[:10]` truncation can then select and order
them differently). -/
theorem claim_C7_amended (f24 fwk : List PyVal) (e1 e2 : List PyPrim)
    (h : e1.Perm e2) :
    (full_rows f24 fwk e1).Perm (full_rows f24 fwk e2) :=
  h.map _

/-- Witness for the amended claim C7 at a concrete input. -/
theorem claim_C7_witness :
    ([PyPrim.str "A", PyPrim.str "B"] : List PyPrim).Perm [PyPrim.str "B", PyPrim.str "A"] ∧
    (full_rows [] [] [PyPrim.str "A", PyPrim.str "B"]).Perm
      (full_rows [] [] [PyPrim.str "B", PyPrim.str "A"]) :=
  ⟨List.Perm.swap _ _ _, claim_C7_amended [] [] _ _ (List.Perm.swap _ _ _)⟩

theorem char_toNat_ofNat_of_valid (m : Nat) (h : m.isValidChar) :
    (Char.ofNat m).toNat = m := by
  simp only [Char.ofNat, dif_pos h, Char.ofNatAux, Char.toNat, UInt32.toNat]
  simp

theorem pyUpperChar_fixed (c : Char) : pyUpperChar (pyUpperChar c) = pyUpperChar c := by
  unfold pyUpperChar
  split
  · next h =>
    simp only [Bool.and_eq_true, decide_eq_true_eq] at h
    obtain ⟨h1, h2⟩ := h
    have hn1 : 97 ≤ c.toNat := by simpa [Char.le_def] using h1
    have hn2 : c.toNat ≤ 122 := by simpa [Char.le_def] using h2
    have hvalid : (c.toNat - 32).isValidChar := Or.inl (by omega)
    have hval : (Char.ofNat (c.toNat - 32)).toNat = c.toNat - 32 :=
      char_toNat_ofNat_of_valid _ hvalid
    rw [if_neg]
    simp only [Bool.and_eq_true, decide_eq_true_eq, not_and]
    intro ha
    have h97 : 97 ≤ (Char.ofNat (c.toNat - 32)).toNat := by
      simpa [Char.le_def] using ha
    rw [hval] at h97
    omega
  · rfl

/-- Claim C8, counterexample: a whitespace-only company name is truthy in
Python, so it reaches `company.strip().upper()[:10]` and sanitizes to the
EMPTY string — not to `'UNKNOWN'` and not to a non-empty string as the claim
requires. -/
theorem claim_C8_counterexample :
    sanitize_company_name (PyPrim.str "   ") = "" ∧
    sanitize_company_name (PyPrim.str "   ") ≠ "UNKNOWN" := by
  constructor
  · rfl
  · decide

/-- Claim C8, amended: for every input, the sanitized company name is
`'UNKNOWN'` when the input is missing, not a string, or the empty string;
otherwise it is the first 10 characters of the trimmed, upper-cased input —
at most 10 characters, all fixed points of upper-casing, but possibly empty
(whitespace-only input) rather than guaranteed non-empty. -/
theorem claim_C8_amended (v : PyPrim) :
    sanitize_company_name v = "UNKNOWN" ∨
    (∃ s, v = PyPrim.str s ∧ s ≠ "" ∧
      sanitize_company_name v = pySlice10 (pyUpper (pyStrip s))) ∧
    (sanitize_company_name v).length ≤ 10 ∧
    ∀ c ∈ (sanitize_company_name v).data, pyUpperChar c = c := by
  match v with
  | .none | .int _ | .float _ => exact Or.inl rfl
  | .str s =>
    by_cases hs : s = ""
    · exact Or.inl (by simp [sanitize_company_name, hs])
    · refine Or.inr ⟨⟨s, rfl, hs, by simp [sanitize_company_name, hs]⟩, ?_, ?_⟩
      · have hlen : (sanitize_company_name (PyPrim.str s)).length
            = (List.take 10 (pyUpper (pyStrip s)).data).length := by
          rw [sanitize_company_name, if_neg hs]
          rfl
        rw [hlen, List.length_take]
        exact min_le_left _ _
      · intro c hc
        simp only [sanitize_company_name, if_neg hs, pySlice10] at hc
        have hc' : c ∈ (pyUpper (pyStrip s)).data := List.take_subset _ _ hc
        simp only [pyUpper] at hc'
        obtain ⟨d, _, rfl⟩ := List.mem_map.mp hc'
        exact pyUpperChar_fixed d

/-- Witness for the amended claim C8 at a concrete input. -/
theorem claim_C8_witness :
    sanitize_company_name (PyPrim.str "  msft inc ") = "UNKNOWN" ∨
    (∃ s, PyPrim.str "  msft inc " = PyPrim.str s ∧ s ≠ "" ∧
      sanitize_company_name (PyPrim.str "  msft inc ") = pySlice10 (pyUpper (pyStrip s))) ∧
    (sanitize_company_name (PyPrim.str "  msft inc ")).length ≤ 10 ∧
    ∀ c ∈ (sanitize_company_name (PyPrim.str "  msft inc ")).data, pyUpperChar c = c :=
  claim_C8_amended (PyPrim.str "  msft inc ")

theorem tickerAt_spec (cs : List Char) (r : List Char) (h : tickerAt cs = some r) :
    1 ≤ r.length ∧ r.length ≤ 5 ∧ ∀ c ∈ r, upperAZ c = true := by
  simp only [tickerAt] at h
  split at h
  · next hcond =>
    simp only [Option.some.injEq] at h
    subst h
    simp only [Bool.and_eq_true, decide_eq_true_eq] at hcond
    exact ⟨hcond.1.1, hcond.1.2, fun c hc => List.mem_takeWhile_imp hc⟩
  · cases h

theorem findTicker_spec (cs : List Char) (r : List Char) (h : findTicker cs = some r) :
    1 ≤ r.length ∧ r.length ≤ 5 ∧ ∀ c ∈ r, upperAZ c = true := by
  induction cs with
  | nil => exact absurd h (by simp [findTicker])
  | cons c cs ih =>
    unfold findTicker at h
    split at h
    · cases hta : tickerAt cs with
      | none =>
        rw [hta] at h
        exact ih h
      | some r2 =>
        rw [hta] at h
        simp only [Option.some.injEq] at h
        subst h
        exact tickerAt_spec cs r2 hta
    · exact ih h

/-- Claim C1, counterexample: the spec's own malformed record
`{'company': None, 'shares': 'bad'}` does not raise, but it is NOT normalized
to the documented sentinels: the non-raising path of
`_extract_insider_details` hardcodes `shares = 10000` (not the sentinel 0),
`transaction = 'Sale'` (not `'Unknown'`), `price = 100.0` (not 0.0), and the
insider becomes the empty string (not `'Unknown'`). -/
theorem claim_C1_counterexample :
    (extract_insider_details
        (PyVal.dict [("company", PyPrim.none), ("shares", PyPrim.str "bad")])
        "2026-10-12").shares = 10000 ∧
    (extract_insider_details
        (PyVal.dict [("company", PyPrim.none), ("shares", PyPrim.str "bad")])
        "2026-10-12").shares ≠ 0 ∧
    (extract_insider_details
        (PyVal.dict [("company", PyPrim.none), ("shares", PyPrim.str "bad")])
        "2026-10-12").insider = "" ∧
    (extract_insider_details
        (PyVal.dict [("company", PyPrim.none), ("shares", PyPrim.str "bad")])
        "2026-10-12").insider ≠ "Unknown" ∧
    (extract_insider_details
        (PyVal.dict [("company", PyPrim.none), ("shares", PyPrim.str "bad")])
        "2026-10-12").transaction = "Sale" := by
  refine ⟨rfl, by decide, rfl, by decide, rfl⟩

/-- Claim C1, amended: `_extract_insider_details` is total (no input shape
raises) and every field of the returned record is populated: the company is
`'UNKNOWN'` or a 1-to-5-character uppercase ticker parsed from the title, and
the date field is truthy (the filing's own date or the current processing
date).  But the remaining sentinels appear only on the exception path
(non-dictionary input or non-string title): on the normal path transaction,
shares and price are the hardcoded placeholders `'Sale'`, `10000`, `100.0` —
not the per-field sentinels — and the insider is the title's prefix before
`' - '`, which may be any string (including empty) rather than `'Unknown'`. -/
theorem claim_C1_amended (filing : PyVal) (today : String) (htoday : today ≠ "")
    (r : InsiderRecord) (hr : r = extract_insider_details filing today) :
    (r.company = "UNKNOWN" ∨
      (1 ≤ r.company.length ∧ r.company.length ≤ 5 ∧
        ∀ c ∈ r.company.data, upperAZ c = true)) ∧
    ((r.transaction = "Sale" ∧ r.shares = 10000 ∧ r.price = 100 ∧ r.err = false) ∨
      (r.transaction = "Unknown" ∧ r.shares = 0 ∧ r.price = 0 ∧
        r.insider = "Unknown" ∧ r.err = true)) ∧
    primTruthy r.date = true := by
  subst hr
  have hfall : ∀ t : String, t ≠ "" →
      ((fallbackRecord t).company = "UNKNOWN" ∨
        (1 ≤ (fallbackRecord t).company.length ∧ (fallbackRecord t).company.length ≤ 5 ∧
          ∀ c ∈ (fallbackRecord t).company.data, upperAZ c = true)) ∧
      (((fallbackRecord t).transaction = "Sale" ∧ (fallbackRecord t).shares = 10000 ∧
          (fallbackRecord t).price = 100 ∧ (fallbackRecord t).err = false) ∨
        ((fallbackRecord t).transaction = "Unknown" ∧ (fallbackRecord t).shares = 0 ∧
          (fallbackRecord t).price = 0 ∧ (fallbackRecord t).insider = "Unknown" ∧
          (fallbackRecord t).err = true)) ∧
      primTruthy (fallbackRecord t).date = true := by
    intro t ht
    refine ⟨Or.inl rfl, Or.inr ⟨rfl, rfl, rfl, rfl, rfl⟩, ?_⟩
    simpa [fallbackRecord, primTruthy] using ht
  match filing with
  | .prim p => exact hfall today htoday
  | .dict entries =>
    cases htitle : pyGet entries "title" (.str "") with
    | str t =>
      have hrec : extract_insider_details (PyVal.dict entries) today =
          { company := match findTicker t.data with
              | some tick => String.mk tick
              | Option.none => "UNKNOWN",
            insider := String.mk (beforeSep t.data),
            transaction := "Sale", shares := 10000, price := 100,
            date := if primTruthy (pyGet entries "date" (.str "")) then
                pyGet entries "date" (.str "") else .str today,
            filing_url := pyGet entries "url" (.str ""),
            raw_title := .str t, err := false } := by
        simp only [extract_insider_details]
        rw [htitle]
      rw [hrec]
      refine ⟨?_, Or.inl ⟨rfl, rfl, rfl, rfl⟩, ?_⟩
      · show (match findTicker t.data with
            | some tick => String.mk tick
            | Option.none => "UNKNOWN") = "UNKNOWN" ∨ _
        cases hft : findTicker t.data with
        | none => exact Or.inl (by simp [hft])
        | some tick =>
          obtain ⟨h1, h5, hup⟩ := findTicker_spec t.data tick hft
          refine Or.inr ?_
          simp only [hft]
          exact ⟨h1, h5, hup⟩
      · show primTruthy (if primTruthy (pyGet entries "date" (.str "")) then
            pyGet entries "date" (.str "") else .str today) = true
        by_cases hdate : primTruthy (pyGet entries "date" (.str "")) = true
        · simp [hdate]
        · simp only [Bool.not_eq_true] at hdate
          simp only [hdate]
          simpa [primTruthy] using htoday
    | none =>
      simpa only [extract_insider_details, htitle] using hfall today htoday
    | int n =>
      simpa only [extract_insider_details, htitle] using hfall today htoday
    | float q =>
      simpa only [extract_insider_details, htitle] using hfall today htoday

/-- Witness for the amended claim C1 at a concrete input. -/
theorem claim_C1_witness :
    "2026-10-12" ≠ "" ∧
    (((extract_insider_details
          (PyVal.dict [("title", PyPrim.str "Cook Timothy D - (AAPL) Form 4")])
          "2026-10-12").company = "UNKNOWN" ∨
        (1 ≤ (extract_insider_details
            (PyVal.dict [("title", PyPrim.str "Cook Timothy D - (AAPL) Form 4")])
            "2026-10-12").company.length ∧
          (extract_insider_details
            (PyVal.dict [("title", PyPrim.str "Cook Timothy D - (AAPL) Form 4")])
            "2026-10-12").company.length ≤ 5 ∧
          ∀ c ∈ (extract_insider_details
              (PyVal.dict [("title", PyPrim.str "Cook Timothy D - (AAPL) Form 4")])
              "2026-10-12").company.data, upperAZ c = true)) ∧
      (((extract_insider_details
            (PyVal.dict [("title", PyPrim.str "Cook Timothy D - (AAPL) Form 4")])
            "2026-10-12").transaction = "Sale" ∧
          (extract_insider_details
            (PyVal.dict [("title", PyPrim.str "Cook Timothy D - (AAPL) Form 4")])
            "2026-10-12").shares = 10000 ∧
          (extract_insider_details
            (PyVal.dict [("title", PyPrim.str "Cook Timothy D - (AAPL) Form 4")])
            "2026-10-12").price = 100 ∧
          (extract_insider_details
            (PyVal.dict [("title", PyPrim.str "Cook Timothy D - (AAPL) Form 4")])
            "2026-10-12").err = false) ∨
        ((extract_insider_details
            (PyVal.dict [("title", PyPrim.str "Cook Timothy D - (AAPL) Form 4")])
            "2026-10-12").transaction = "Unknown" ∧
          (extract_insider_details
            (PyVal.dict [("title", PyPrim.str "Cook Timothy D - (AAPL) Form 4")])
            "2026-10-12").shares = 0 ∧
          (extract_insider_details
            (PyVal.dict [("title", PyPrim.str "Cook Timothy D - (AAPL) Form 4")])
            "2026-10-12").price = 0 ∧
          (extract_insider_details
            (PyVal.dict [("title", PyPrim.str "Cook Timothy D - (AAPL) Form 4")])
            "2026-10-12").insider = "Unknown" ∧
          (extract_insider_details
            (PyVal.dict [("title", PyPrim.str "Cook Timothy D - (AAPL) Form 4")])
            "2026-10-12").err = true)) ∧
      primTruthy (extract_insider_details
          (PyVal.dict [("title", PyPrim.str "Cook Timothy D - (AAPL) Form 4")])
          "2026-10-12").date = true) :=
  ⟨by decide,
   claim_C1_amended
     (PyVal.dict [("title", PyPrim.str "Cook Timothy D - (AAPL) Form 4")])
     "2026-10-12" (by decide) _ rfl⟩

/-- Claim C2, counterexample: the processing loop is `for filing in
filings[:20]` (`src/tools/sec_scraper.py` line 64), so an input of 21 raw
filings yields only 20 normalized records — the 21st is dropped and input
count does not equal output count. -/
theorem claim_C2_counterexample :
    (List.replicate 21 (PyVal.dict [])).length = 21 ∧
    (get_recent_insider_filings
        (FetchOutcome.response 200 (List.replicate 21 (PyVal.dict [])))
        "2026-10-12" "2026-10-11").length = 20 :=
  ⟨rfl, rfl⟩

/-- Claim C2, amended: on a 200 response with a non-empty parsed feed, the
stage emits exactly one normalized record per raw record for the first 20 raw
records and drops the rest: the output count is `min (input count) 20` (and a
feed that yields zero records is replaced by the three sample records). -/
theorem claim_C2_amended (feed : List PyVal) (t y : String) (hne : feed ≠ []) :
    (get_recent_insider_filings (FetchOutcome.response 200 feed) t y).length
      = min feed.length 20 := by
  have hflt : ((feed.take 20).map
        (fun f => recordToDict (extract_insider_details f t))).filter pyTruthy
      = (feed.take 20).map (fun f => recordToDict (extract_insider_details f t)) := by
    apply List.filter_eq_self.mpr
    intro a ha
    obtain ⟨f, hf, rfl⟩ := List.mem_map.mp ha
    rfl
  have hlen : (((feed.take 20).map
        (fun f => recordToDict (extract_insider_details f t))).filter pyTruthy).length
      = min feed.length 20 := by
    rw [hflt, List.length_map, List.length_take, Nat.min_comm]
  have hne2 : ((feed.take 20).map
        (fun f => recordToDict (extract_insider_details f t))).filter pyTruthy ≠ [] := by
    intro hemp
    rw [hemp] at hlen
    have hpos : 0 < feed.length := List.length_pos.mpr hne
    simp only [List.length_nil] at hlen
    omega
  show (if ((feed.take 20).map
        (fun f => recordToDict (extract_insider_details f t))).filter pyTruthy = []
      then sample_data t y
      else ((feed.take 20).map
        (fun f => recordToDict (extract_insider_details f t))).filter pyTruthy).length
    = min feed.length 20
  rw [if_neg hne2]
  exact hlen

/-- Witness for the amended claim C2 at a concrete input. -/
theorem claim_C2_witness :
    ([PyVal.dict []] : List PyVal) ≠ [] ∧
    (get_recent_insider_filings (FetchOutcome.response 200 [PyVal.dict []])
        "2026-10-12" "2026-10-11").length = min ([PyVal.dict []] : List PyVal).length 20 :=
  ⟨by simp, claim_C2_amended [PyVal.dict []] "2026-10-12" "2026-10-11" (by simp)⟩

/-- Claim C9: `get_recent_insider_filings` never returns an empty list: when
the fetch raised, when the status is not 200, or when the feed yields no
records, it returns the three hardcoded sample records — whose companies are
AAPL, MSFT, GOOGL and which carry the `note` field — in place of live data. -/
theorem claim_C9 (fetch : FetchOutcome) (t y : String) :
    get_recent_insider_filings fetch t y ≠ [] ∧
    (fetch = FetchOutcome.raised →
      get_recent_insider_filings fetch t y = sample_data t y) ∧
    (∀ s feed, fetch = FetchOutcome.response s feed → s ≠ 200 →
      get_recent_insider_filings fetch t y = sample_data t y) ∧
    (∀ s, fetch = FetchOutcome.response s [] →
      get_recent_insider_filings fetch t y = sample_data t y) ∧
    (sample_data t y).map (fun d => dictGet d "company" PyPrim.none)
      = [PyPrim.str "AAPL", PyPrim.str "MSFT", PyPrim.str "GOOGL"] ∧
    (sample_data t y).map (fun d => dictGet d "note" PyPrim.none)
      = [PyPrim.str SAMPLE_DATA_NOTE, PyPrim.str SAMPLE_DATA_NOTE,
         PyPrim.str SAMPLE_DATA_NOTE] := by
  refine ⟨?_, ?_, ?_, ?_, rfl, rfl⟩
  · cases fetch with
    | raised => simp [get_recent_insider_filings, sample_data]
    | response s feed =>
      show (if (if s = 200 then ((feed.take 20).map
            (fun f => recordToDict (extract_insider_details f t))).filter pyTruthy
            else []) = []
          then sample_data t y
          else (if s = 200 then ((feed.take 20).map
            (fun f => recordToDict (extract_insider_details f t))).filter pyTruthy
            else [])) ≠ []
      by_cases h : (if s = 200 then ((feed.take 20).map
          (fun f => recordToDict (extract_insider_details f t))).filter pyTruthy
          else []) = []
      · rw [if_pos h]
        simp [sample_data]
      · rw [if_neg h]
        exact h
  · intro h
    subst h
    rfl
  · intro s feed heq hs
    subst heq
    show (if (if s = 200 then ((feed.take 20).map
          (fun f => recordToDict (extract_insider_details f t))).filter pyTruthy
          else []) = []
        then sample_data t y
        else (if s = 200 then ((feed.take 20).map
          (fun f => recordToDict (extract_insider_details f t))).filter pyTruthy
          else [])) = sample_data t y
    rw [if_neg hs]
    simp
  · intro s heq
    subst heq
    show (if (if s = 200 then ((([] : List PyVal).take 20).map
          (fun f => recordToDict (extract_insider_details f t))).filter pyTruthy
          else []) = []
        then sample_data t y
        else (if s = 200 then ((([] : List PyVal).take 20).map
          (fun f => recordToDict (extract_insider_details f t))).filter pyTruthy
          else [])) = sample_data t y
    have hempty : (if s = 200 then ((([] : List PyVal).take 20).map
          (fun f => recordToDict (extract_insider_details f t))).filter pyTruthy
          else []) = ([] : List PyVal) := by
      by_cases hs : s = 200 <;> simp [hs]
    rw [hempty]
    simp

/-- Witness for claim C9 at a concrete input. -/
theorem claim_C9_witness :
    get_recent_insider_filings FetchOutcome.raised "2026-10-12" "2026-10-11" ≠ [] ∧
    (FetchOutcome.raised = FetchOutcome.raised →
      get_recent_insider_filings FetchOutcome.raised "2026-10-12" "2026-10-11"
        = sample_data "2026-10-12" "2026-10-11") ∧
    (∀ s feed, FetchOutcome.raised = FetchOutcome.response s feed → s ≠ 200 →
      get_recent_insider_filings FetchOutcome.raised "2026-10-12" "2026-10-11"
        = sample_data "2026-10-12" "2026-10-11") ∧
    (∀ s, FetchOutcome.raised = FetchOutcome.response s [] →
      get_recent_insider_filings FetchOutcome.raised "2026-10-12" "2026-10-11"
        = sample_data "2026-10-12" "2026-10-11") ∧
    (sample_data "2026-10-12" "2026-10-11").map (fun d => dictGet d "company" PyPrim.none)
      = [PyPrim.str "AAPL", PyPrim.str "MSFT", PyPrim.str "GOOGL"] ∧
    (sample_data "2026-10-12" "2026-10-11").map (fun d => dictGet d "note" PyPrim.none)
      = [PyPrim.str SAMPLE_DATA_NOTE, PyPrim.str SAMPLE_DATA_NOTE,
         PyPrim.str SAMPLE_DATA_NOTE] :=
  claim_C9 FetchOutcome.raised "2026-10-12" "2026-10-11"

/-- Claim C3, counterexample: the claim's two rules collide when a key is
present only in the baseline but with a zero baseline total (e.g. an entity
whose window records all have 0 shares): the baseline-total-zero rule wins,
so the percent delta is the new-activity sentinel, not the -100% the claim
requires for baseline-only keys. -/
theorem claim_C3_counterexample :
    compare_windows [] [("Z", 0)]
      = [{ key := "Z", currentTotal := 0, baselineTotal := 0, absoluteDelta := 0,
           percentDelta := PercentDelta.newActivity }] ∧
    PercentDelta.newActivity ≠ PercentDelta.pct (-1) := by
  constructor
  · norm_num [compare_windows, lookupQ, ComparisonResult.mk.injEq]
  · intro h
    cases h

/-- Claim C3, amended: in every comparison, a key whose baseline total is not
positive gets the new-activity sentinel as percent delta (never a
division-by-zero error or infinity), and a key present only in the baseline
has current total 0 and — whenever its baseline total is positive — percent
delta exactly -100%. -/
theorem claim_C3_amended (current baseline : List (String × Rat)) (r : ComparisonResult)
    (hr : r ∈ compare_windows current baseline) :
    (r.baselineTotal ≤ 0 → r.percentDelta = PercentDelta.newActivity) ∧
    (lookupQ current r.key = Option.none →
      r.currentTotal = 0 ∧
        (0 < r.baselineTotal → r.percentDelta = PercentDelta.pct (-1))) := by
  simp only [compare_windows, List.mem_map] at hr
  obtain ⟨k, hk, rfl⟩ := hr
  constructor
  · intro hb
    show (if 0 < (lookupQ baseline k).getD 0 then
        PercentDelta.pct ((((lookupQ current k).getD 0) - (lookupQ baseline k).getD 0)
          / (lookupQ baseline k).getD 0)
      else PercentDelta.newActivity) = PercentDelta.newActivity
    rw [if_neg (not_lt.mpr hb)]
  · intro hcur
    have hc : (lookupQ current k).getD 0 = 0 := by
      show (lookupQ current k).getD 0 = 0
      rw [hcur]
      rfl
    refine ⟨hc, ?_⟩
    intro hbpos
    show (if 0 < (lookupQ baseline k).getD 0 then
        PercentDelta.pct ((((lookupQ current k).getD 0) - (lookupQ baseline k).getD 0)
          / (lookupQ baseline k).getD 0)
      else PercentDelta.newActivity) = PercentDelta.pct (-1)
    have hbpos' : 0 < (lookupQ baseline k).getD 0 := hbpos
    rw [if_pos hbpos', hc, zero_sub, neg_div,
      div_self (ne_of_gt hbpos')]

/-- The comparison row produced for the baseline-only key of the C3 witness
input. -/
def c3SampleResult : ComparisonResult :=
  { key := "Z", currentTotal := 0, baselineTotal := 3, absoluteDelta := -3,
    percentDelta := PercentDelta.pct (-1) }

/-- Witness for the amended claim C3 at a concrete input. -/
theorem claim_C3_witness :
    c3SampleResult ∈ compare_windows [] [("Z", 3)] ∧
    ((c3SampleResult.baselineTotal ≤ 0 →
        c3SampleResult.percentDelta = PercentDelta.newActivity) ∧
      (lookupQ [] c3SampleResult.key = Option.none →
        c3SampleResult.currentTotal = 0 ∧
          (0 < c3SampleResult.baselineTotal →
            c3SampleResult.percentDelta = PercentDelta.pct (-1)))) := by
  have hmem : c3SampleResult ∈ compare_windows [] [("Z", 3)] := by
    norm_num [compare_windows, lookupQ, c3SampleResult, ComparisonResult.mk.injEq]
  exact ⟨hmem, claim_C3_amended [] [("Z", 3)] _ hmem⟩

theorem analyze_text_sentiment_cases (p c : Rat) :
    analyze_text_sentiment p c = "positive" ∨ analyze_text_sentiment p c = "negative" ∨
      analyze_text_sentiment p c = "neutral" := by
  simp only [analyze_text_sentiment]
  split_ifs <;> simp

theorem count_sentiment_cons (lbl x : String) (l : List String) :
    count_sentiment lbl (x :: l) = (if x = lbl then 1 else 0) + count_sentiment lbl l := by
  by_cases h : x = lbl <;> simp [count_sentiment, List.filter_cons, h, Nat.add_comm]

theorem count_sentiment_three (l : List String)
    (h : ∀ x ∈ l, x = "positive" ∨ x = "negative" ∨ x = "neutral") :
    count_sentiment "positive" l + count_sentiment "negative" l + count_sentiment "neutral" l
      = l.length := by
  induction l with
  | nil => rfl
  | cons x l ih =>
    have hx := h x (List.mem_cons_self x l)
    have ih' := ih (fun y hy => h y (List.mem_cons_of_mem x hy))
    rcases hx with hx | hx | hx <;> subst hx <;>
      simp [count_sentiment_cons] <;> omega

/-- Claim C10: in the sentiment aggregation, for every non-empty collection of
analyzed entries the breakdown is conserved (each entry's label is exactly one
of positive/negative/neutral, so the three counts sum to the number of
mentions) and the overall label is a majority vote between positive and
negative counts, `neutral` on a tie. -/
theorem claim_C10 (scores : List (Rat × Rat)) (hne : scores ≠ []) :
    count_sentiment "positive" (market_labels scores)
        + count_sentiment "negative" (market_labels scores)
        + count_sentiment "neutral" (market_labels scores) = scores.length ∧
    (overall_sentiment (market_labels scores) = "positive" ↔
      count_sentiment "negative" (market_labels scores)
        < count_sentiment "positive" (market_labels scores)) ∧
    (overall_sentiment (market_labels scores) = "negative" ↔
      count_sentiment "positive" (market_labels scores)
        < count_sentiment "negative" (market_labels scores)) ∧
    (overall_sentiment (market_labels scores) = "neutral" ↔
      count_sentiment "positive" (market_labels scores)
        = count_sentiment "negative" (market_labels scores)) := by
  have hall : ∀ x ∈ market_labels scores,
      x = "positive" ∨ x = "negative" ∨ x = "neutral" := by
    intro x hx
    obtain ⟨p, hp, rfl⟩ := List.mem_map.mp hx
    exact analyze_text_sentiment_cases p.1 p.2
  refine ⟨?_, ?_, ?_, ?_⟩
  · exact (count_sentiment_three (market_labels scores) hall).trans
      (List.length_map _ _)
  · unfold overall_sentiment
    split_ifs with h1 h2
    · exact ⟨fun _ => h1, fun _ => rfl⟩
    · exact ⟨fun h => absurd h (by decide), fun hlt => absurd hlt h1⟩
    · exact ⟨fun h => absurd h (by decide), fun hlt => absurd hlt h1⟩
  · unfold overall_sentiment
    split_ifs with h1 h2
    · exact ⟨fun h => absurd h (by decide), fun hlt => absurd h1 (by omega)⟩
    · exact ⟨fun _ => h2, fun _ => rfl⟩
    · exact ⟨fun h => absurd h (by decide), fun hlt => absurd hlt h2⟩
  · unfold overall_sentiment
    split_ifs with h1 h2
    · exact ⟨fun h => absurd h (by decide), fun heq => absurd h1 (by omega)⟩
    · exact ⟨fun h => absurd h (by decide), fun heq => absurd h2 (by omega)⟩
    · exact ⟨fun _ => by omega, fun _ => rfl⟩

/-- Witness for claim C10 at a concrete input. -/
theorem claim_C10_witness :
    ([((1 : Rat), (1 : Rat))] : List (Rat × Rat)) ≠ [] ∧
    (count_sentiment "positive" (market_labels [((1 : Rat), (1 : Rat))])
        + count_sentiment "negative" (market_labels [((1 : Rat), (1 : Rat))])
        + count_sentiment "neutral" (market_labels [((1 : Rat), (1 : Rat))])
      = ([((1 : Rat), (1 : Rat))] : List (Rat × Rat)).length ∧
    (overall_sentiment (market_labels [((1 : Rat), (1 : Rat))]) = "positive" ↔
      count_sentiment "negative" (market_labels [((1 : Rat), (1 : Rat))])
        < count_sentiment "positive" (market_labels [((1 : Rat), (1 : Rat))])) ∧
    (overall_sentiment (market_labels [((1 : Rat), (1 : Rat))]) = "negative" ↔
      count_sentiment "positive" (market_labels [((1 : Rat), (1 : Rat))])
        < count_sentiment "negative" (market_labels [((1 : Rat), (1 : Rat))])) ∧
    (overall_sentiment (market_labels [((1 : Rat), (1 : Rat))]) = "neutral" ↔
      count_sentiment "positive" (market_labels [((1 : Rat), (1 : Rat))])
        = count_sentiment "negative" (market_labels [((1 : Rat), (1 : Rat))]))) :=
  ⟨by simp, claim_C10 [((1 : Rat), (1 : Rat))] (by simp)⟩
